import Mathlib

/-!
Shallow embedding of `lib/wasm/WebAssemblyGenerator.js`.

The generator rewrites a WebAssembly binary so that imported globals become
locally defined mutable globals filled by a synthesized `__webpack_init__`
function.  The external collaborators (the `@webassemblyjs` decoder and the
`editWithAST`/`addWithAST` patch appliers) operate on a byte buffer guided by
the decoded module tree; in this embedding the byte buffer is represented by
its decoded structure, so both the tree (`ast`) and the buffer (`bin`) are
values of type `Module`, the decoder is the identity, node removal is list
filtering and `addWithAST` appends each new node at the end of its section
(creating an absent section when needed), which is the placement the patch
applier performs.
-/

namespace WebAssemblyGenerator

/-- Identifier node, as produced by `t.identifier(value)`. -/
structure Identifier where
  value : String
deriving DecidableEq, Repr

/-- Global type descriptor `{valtype, mutability}`; `valtype` is one of
"i32", "i64", "f32", "f64" and `mutability` is "const" or "var", kept as
strings exactly as in the JS AST. -/
structure GlobalType where
  valtype : String
  mutability : String
deriving DecidableEq, Repr

/-- Import descriptor variant: the JS AST tags the node with
`descr.type` being "GlobalType", "FuncImportDescr", "Memory" or "Table". -/
inductive ImportDescr where
  | globalType (g : GlobalType)
  | funcImportDescr (i : Nat)
  | memory
  | table
deriving DecidableEq, Repr

/-- Projection matching the JS access `descr.valtype` (only ever used on
global imports; other descriptors have no such field). -/
def ImportDescr.valtype : ImportDescr → String
  | .globalType g => g.valtype
  | _ => ""

/-- `t.ModuleImport`: `{module, name, descr}`. -/
structure ModuleImport where
  module : String
  name : String
  descr : ImportDescr
deriving DecidableEq, Repr

/-- Instruction nodes built by the generator: `t.instruction(id, args)`,
`t.objectInstruction(id, object, args)` and `t.callInstruction(index)`. -/
inductive Instr where
  | instruction (id : String) (args : List Nat)
  | objectInstruction (id : String) (object : String) (args : List Nat)
  | callInstruction (index : Nat)
deriving DecidableEq, Repr

/-- `t.funcParam(valtype, id)`. -/
structure FuncParam where
  valtype : String
  id : String
deriving DecidableEq, Repr

/-- Function signature `{params, result}`; also the shape of a type-section
entry built by `t.typeInstructionFunc(params, result)`. -/
structure FuncSignature where
  params : List FuncParam
  result : List String
deriving DecidableEq, Repr

/-- Function node built by `t.func(id, params, results, body)`. -/
structure Func where
  id : String
  signature : FuncSignature
  body : List Instr
deriving DecidableEq, Repr

/-- Global node built by `t.global(globalType, init)`. -/
structure Global where
  globalType : GlobalType
  init : List Instr
deriving DecidableEq, Repr

/-- Export node built by `t.moduleExport(name, exportType, id)`. -/
structure ModuleExport where
  name : String
  exportType : String
  id : Nat
deriving DecidableEq, Repr

/-- Decoded module. `typeSec` and `funcSec` are `Option` so that an absent
section is distinguished from a present empty one (the source queries their
`t.getSectionMetadata` which is `undefined` for an absent section); `funcSec`
holds the type index of each locally defined function.  `start` is the start
section's function index, `none` when the section is absent. -/
structure Module where
  typeSec : Option (List FuncSignature)
  imports : List ModuleImport
  funcSec : Option (List Nat)
  funcs : List Func
  globals : List Global
  exports : List ModuleExport
  start : Option Nat
deriving DecidableEq, Repr

/-- Section metadata: the source only ever reads `vectorOfSize.value`, the
number of entries in the section. -/
structure SectionMetadata where
  vectorOfSize : Nat
deriving DecidableEq, Repr

/-- `t.getSectionMetadata(ast, section)`: `undefined` when the section is
absent, otherwise its entry count.  The source only queries "type" and
"func". -/
def getSectionMetadata (ast : Module) (sec : String) : Option SectionMetadata :=
  if sec = "type" then ast.typeSec.map (fun l => ⟨l.length⟩)
  else if sec = "func" then ast.funcSec.map (fun l => ⟨l.length⟩)
  else none

/-- `compose(...fns)`: reverses the argument list and folds
`(prevFn, nextFn) => value => nextFn(prevFn(value))` starting from the
identity, exactly as lines 14-18 of the source. -/
def compose {α : Type} (fns : List (α → α)) : α → α :=
  fns.reverse.foldl (fun prevFn nextFn => fun value => nextFn (prevFn value))
    (fun value => value)

/-- `isGlobalImport(n)` : `n.descr.type === "GlobalType"`. -/
def isGlobalImport (n : ModuleImport) : Bool :=
  match n.descr with
  | .globalType _ => true
  | _ => false

/-- `isFuncImport(n)` : `n.descr.type === "FuncImportDescr"`. -/
def isFuncImport (n : ModuleImport) : Bool :=
  match n.descr with
  | .funcImportDescr _ => true
  | _ => false

/-- `initFuncId = t.identifier("__webpack_init__")`. -/
def initFuncId : Identifier := ⟨"__webpack_init__"⟩

/-- `removeStartFunc(state)(bin)`: `editWithAST` visits the `Start` node of
`state.ast` (when present) and removes it from `bin`; with no start section
nothing is visited and the buffer is returned unchanged. -/
def removeStartFunc (ast : Module) (bin : Module) : Module :=
  match ast.start with
  | some _ => { bin with start := none }
  | none => bin

/-- `getStartFuncIndex(ast)`: traversal records `node.index` of the `Start`
node, `undefined` when the module has none. -/
def getStartFuncIndex (ast : Module) : Option Nat :=
  ast.start

/-- `getImportedGlobals(ast)`: traversal pushing every `ModuleImport` node
satisfying `isGlobalImport`, in declaration order. -/
def getImportedGlobals (ast : Module) : List ModuleImport :=
  ast.imports.filter (fun n => isGlobalImport n)

/-- `getCountImportedFunc(ast)`: traversal incrementing a counter on every
`ModuleImport` node satisfying `isFuncImport`. -/
def getCountImportedFunc (ast : Module) : Nat :=
  ast.imports.countP (fun n => isFuncImport n)

/-- `getNextTypeIndex(ast)`: 0 when the type section metadata is undefined,
otherwise its `vectorOfSize.value`. -/
def getNextTypeIndex (ast : Module) : Nat :=
  match getSectionMetadata ast "type" with
  | none => 0
  | some typeSectionMetadata => typeSectionMetadata.vectorOfSize

/-- `getNextFuncIndex(ast, countImportedFunc)`: `0 + countImportedFunc` when
the func section metadata is undefined, otherwise
`vectorOfSize + countImportedFunc`. -/
def getNextFuncIndex (ast : Module) (countImportedFunc : Nat) : Nat :=
  match getSectionMetadata ast "func" with
  | none => 0 + countImportedFunc
  | some funcSectionMetadata => funcSectionMetadata.vectorOfSize + countImportedFunc

/-- One pass of the `ModuleImport` visitor of `rewriteImportedGlobals`
(source lines 163-177), over the import nodes of `state.ast` in order.
For a global import it mutates the node's descriptor in place
(`globalType.mutability = "var"`), pushes
`t.global(globalType, [t.objectInstruction("const", "i32", [t.numberLiteral(0)])])`
built from that same mutated descriptor, and removes the node from the
buffer; any other import is left alone.  Returns the tree's import list
after the mutations together with the pushed `newGlobals`. -/
def rewriteImportedGlobalsVisit :
    List ModuleImport → List ModuleImport × List Global
  | [] => ([], [])
  | n :: rest =>
    let r := rewriteImportedGlobalsVisit rest
    match n.descr with
    | .globalType g =>
      let globalType : GlobalType := ⟨g.valtype, "var"⟩
      (⟨n.module, n.name, .globalType globalType⟩ :: r.1,
        ⟨globalType, [.objectInstruction "const" "i32" [0]]⟩ :: r.2)
    | _ => (n :: r.1, r.2)

/-- `rewriteImportedGlobals(state)(bin)`: the buffer transform; the visitor
removes every global-import node from the buffer and `addWithAST` then
appends the collected `newGlobals` at the end of the global section. -/
def rewriteImportedGlobals (ast : Module) (bin : Module) : Module :=
  let newGlobals := (rewriteImportedGlobalsVisit ast.imports).2
  { bin with
    imports := bin.imports.filter (fun n => !isGlobalImport n),
    globals := bin.globals ++ newGlobals }

/-- Effect of `rewriteImportedGlobals` on the tree itself: the visitor's
assignment `globalType.mutability = "var"` (source line 167) mutates the
descriptor node of every global import in place. -/
def rewriteImportedGlobalsAst (ast : Module) : Module :=
  { ast with imports := (rewriteImportedGlobalsVisit ast.imports).1 }

/-- The state captured by `generate` and handed to `addInitFunction`. -/
structure TransformState where
  startAtFuncIndex : Option Nat
  importedGlobals : List ModuleImport
  nextFuncIndex : Nat
  nextTypeIndex : Nat
deriving DecidableEq, Repr

/-- `addInitFunction(state)(bin)` (source lines 197-243): builds the init
function (params from the imported globals, a get_local/set_global pair per
global, an optional trailing call to the original start index, no results),
its type-section entry, its func-section entry `t.indexInFuncSection(nextTypeIndex)`
and the export `t.moduleExport(initFuncId.value, "Func", nextFuncIndex)`,
and `addWithAST` appends each of the four nodes to its section. -/
def addInitFunction (state : TransformState) (bin : Module) : Module :=
  let funcParams := state.importedGlobals.map (fun importedGlobal =>
    FuncParam.mk importedGlobal.descr.valtype
      (importedGlobal.module ++ "." ++ importedGlobal.name))
  let funcBody := state.importedGlobals.enum.foldl
    (fun acc p =>
      acc ++ [Instr.instruction "get_local" [p.1], Instr.instruction "set_global" [p.1]])
    []
  let funcBody := match state.startAtFuncIndex with
    | some s => funcBody ++ [Instr.callInstruction s]
    | none => funcBody
  let funcResults : List String := []
  let func := Func.mk initFuncId.value (FuncSignature.mk funcParams funcResults) funcBody
  let functype := FuncSignature.mk func.signature.params func.signature.result
  let funcindex := state.nextTypeIndex
  let moduleExport := ModuleExport.mk initFuncId.value "Func" state.nextFuncIndex
  { bin with
    funcs := bin.funcs ++ [func],
    exports := bin.exports ++ [moduleExport],
    funcSec := some (bin.funcSec.getD [] ++ [funcindex]),
    typeSec := some (bin.typeSec.getD [] ++ [functype]) }

/-- Analysis results computed by `generate` before the pipeline runs, all
anchored to the original tree. -/
def generateState (ast : Module) : TransformState :=
  ⟨getStartFuncIndex ast, getImportedGlobals ast,
    getNextFuncIndex ast (getCountImportedFunc ast), getNextTypeIndex ast⟩

/-- `WebAssemblyGenerator.generate` (source lines 246-277): decodes the
buffer (identity in this embedding), computes the analysis, and applies
`compose(removeStartFunc({ast}), rewriteImportedGlobals({ast}),
addInitFunction({...}))` to the buffer. -/
def generate (bin : Module) : Module :=
  let ast := bin
  let transform := compose
    [removeStartFunc ast,
      rewriteImportedGlobals ast,
      addInitFunction (generateState ast)]
  transform bin

/-! Specification-side helpers used to state the claims. -/

/-- Body demanded by the spec: exactly k (read-parameter i, write-global i)
pairs for i in [0,k). -/
def initBodyPairs (k : Nat) : List Instr :=
  ((List.range k).map (fun i =>
    [Instr.instruction "get_local" [i], Instr.instruction "set_global" [i]])).flatten

/-- Global index space of a module: imported globals first, then the global
section entries, each reduced to its global type. -/
def globalIndexSpace (m : Module) : List GlobalType :=
  (m.imports.filter (fun n => isGlobalImport n)).map (fun n =>
    match n.descr with
    | .globalType g => g
    | _ => ⟨"", ""⟩)
    ++ m.globals.map (fun g => g.globalType)

/-- Module with every section absent. -/
def emptyModule : Module :=
  ⟨none, [], none, [], [], [], none⟩

/-- Module importing a single immutable f64 global and nothing else. -/
def f64ConstImportModule : Module :=
  ⟨none, [⟨"env", "g", .globalType ⟨"f64", "const"⟩⟩], none, [], [], [], none⟩

/-- Module with one imported i32 global (k = 1) and one pre-existing locally
defined f32 global (m = 1). -/
def mixedGlobalsModule : Module :=
  ⟨none, [⟨"env", "g", .globalType ⟨"i32", "const"⟩⟩], none, [],
    [⟨⟨"f32", "const"⟩, [.objectInstruction "const" "f32" [7]]⟩], [], none⟩

/-- In-place effect of the visitor on one import node: a global import's
descriptor gets `mutability = "var"`, every other import is untouched. -/
def forceMutableImport (n : ModuleImport) : ModuleImport :=
  match n.descr with
  | .globalType g => ⟨n.module, n.name, .globalType ⟨g.valtype, "var"⟩⟩
  | _ => n

/-- Parameter list of the synthesized init function, as the spec describes
it: one per imported global, in order, same value type, diagnostic name
`<module>.<name>`. -/
def initParams (m : Module) : List FuncParam :=
  (getImportedGlobals m).map (fun g =>
    FuncParam.mk g.descr.valtype (g.module ++ "." ++ g.name))

/-- Body of the synthesized init function, as the spec describes it: the k
read/write pairs followed by a call to the original start index exactly when
the input module had a start section. -/
def initBody (m : Module) : List Instr :=
  initBodyPairs (getImportedGlobals m).length ++
    (match m.start with
     | some s => [Instr.callInstruction s]
     | none => [])

/-! Helper lemmas. -/

theorem rewriteImportedGlobalsVisit_fst (l : List ModuleImport) :
    (rewriteImportedGlobalsVisit l).1 = l.map forceMutableImport := by
  induction l with
  | nil => rfl
  | cons n rest ih =>
    cases h : n.descr <;>
      simp [rewriteImportedGlobalsVisit, forceMutableImport, h, ih]

theorem rewriteImportedGlobalsVisit_snd (l : List ModuleImport) :
    (rewriteImportedGlobalsVisit l).2 =
      (l.filter (fun n => isGlobalImport n)).map (fun n =>
        Global.mk ⟨n.descr.valtype, "var"⟩
          [.objectInstruction "const" "i32" [0]]) := by
  induction l with
  | nil => rfl
  | cons n rest ih =>
    cases h : n.descr <;>
      simp [rewriteImportedGlobalsVisit, isGlobalImport, ImportDescr.valtype, h, ih]

theorem enumFrom_foldl_pairs {α : Type} (l : List α) (n : Nat) (acc : List Instr) :
    (l.enumFrom n).foldl
      (fun acc p =>
        acc ++ [Instr.instruction "get_local" [p.1], Instr.instruction "set_global" [p.1]])
      acc =
      acc ++ ((List.range' n l.length).map (fun i =>
        [Instr.instruction "get_local" [i], Instr.instruction "set_global" [i]])).flatten := by
  induction l generalizing n acc with
  | nil => simp
  | cons a rest ih => simp [List.enumFrom, List.range'_succ, ih]

theorem enum_foldl_pairs {α : Type} (l : List α) :
    l.enum.foldl
      (fun acc p =>
        acc ++ [Instr.instruction "get_local" [p.1], Instr.instruction "set_global" [p.1]])
      [] = initBodyPairs l.length := by
  have h := enumFrom_foldl_pairs l 0 []
  simpa [initBodyPairs, List.range_eq_range', List.enum] using h

/-- Explicit form of the whole pipeline: `generate` filters the global
 imports out, appends the interned globals, appends the init function with
its type entry, func-section entry and export, and clears the start
section. -/
theorem generate_explicit (m : Module) :
    generate m =
      { m with
        typeSec := some (m.typeSec.getD [] ++ [FuncSignature.mk (initParams m) []]),
        imports := m.imports.filter (fun n => !isGlobalImport n),
        funcSec := some (m.funcSec.getD [] ++ [getNextTypeIndex m]),
        funcs := m.funcs ++
          [Func.mk initFuncId.value (FuncSignature.mk (initParams m) []) (initBody m)],
        globals := m.globals ++ (rewriteImportedGlobalsVisit m.imports).2,
        exports := m.exports ++
          [ModuleExport.mk initFuncId.value "Func"
            (getNextFuncIndex m (getCountImportedFunc m))],
        start := none } := by
  have hbody := enum_foldl_pairs (getImportedGlobals m)
  cases hs : m.start <;>
    simp [generate, compose, removeStartFunc, rewriteImportedGlobals,
      addInitFunction, generateState, getStartFuncIndex, initParams, initBody,
      hs, hbody]

/-- The composed pipeline agrees with running the three stages in the
spec's order. -/
theorem generate_eq_stages (m : Module) :
    generate m =
      addInitFunction (generateState m)
        (rewriteImportedGlobals m (removeStartFunc m m)) := by
  cases hs : m.start <;>
    simp [generate, compose, removeStartFunc, rewriteImportedGlobals,
      addInitFunction, generateState, getStartFuncIndex, hs]

/-! Claim theorems. -/

/-- C1: for every input module, the transform produced by
`compose(removeStartFunc, rewriteImportedGlobals, addInitFunction)` — which
is what `generate` applies — equals the three stages applied in the order
StartRemover first, then ImportGlobalInterner, then InitFunctionSynthesizer.
(`compose` itself applies its argument list right to left, so the stages
execute in the opposite order; the equality holds because the three buffer
transforms act on disjoint parts of the module and commute.) -/
theorem generate_pipeline_order (m : Module) :
    generate m =
      addInitFunction (generateState m)
        (rewriteImportedGlobals m (removeStartFunc m m)) ∧
    compose
      [removeStartFunc m,
        rewriteImportedGlobals m,
        addInitFunction (generateState m)] m =
      addInitFunction (generateState m)
        (rewriteImportedGlobals m (removeStartFunc m m)) :=
  ⟨generate_eq_stages m, generate_eq_stages m⟩

/-- C2 counterexample: on the module with no imported globals and no start
section the pipeline output is not identical to the input — the synthesized
init function, its type entry, func-section entry and export are still
added. -/
theorem generate_not_identity_on_trivial :
    generate emptyModule ≠ emptyModule := by decide

/-- C2 amended: with zero imported globals and no start section the
StartRemover and ImportGlobalInterner stages are the identity on the buffer,
and the pipeline output is the input with exactly the synthesized init
function's four entries appended (so it is not byte-identical to the
input). -/
theorem generate_trivial_only_adds_init (m : Module)
    (hg : getImportedGlobals m = []) (hs : m.start = none) :
    removeStartFunc m m = m ∧ rewriteImportedGlobals m m = m ∧
      generate m = addInitFunction (generateState m) m := by
  have hall : ∀ n ∈ m.imports, ¬ isGlobalImport n = true :=
    List.filter_eq_nil_iff.mp hg
  have hfilter : m.imports.filter (fun n => !isGlobalImport n) = m.imports :=
    List.filter_eq_self.mpr (by
      intro n hn
      simp [hall n hn])
  have hrs : removeStartFunc m m = m := by
    simp [removeStartFunc, hs]
  have hrw : rewriteImportedGlobals m m = m := by
    have hg' : m.imports.filter (fun n => isGlobalImport n) = [] := hg
    have hsnd : (rewriteImportedGlobalsVisit m.imports).2 = [] := by
      rw [rewriteImportedGlobalsVisit_snd, hg']
      rfl
    simp [rewriteImportedGlobals, hsnd, hfilter]
  refine ⟨hrs, hrw, ?_⟩
  rw [generate_eq_stages, hrs, hrw]

/-- C2 amended, witness at the empty module. -/
theorem generate_trivial_only_adds_init_witness :
    removeStartFunc emptyModule emptyModule = emptyModule ∧
      rewriteImportedGlobals emptyModule emptyModule = emptyModule ∧
      generate emptyModule =
        addInitFunction (generateState emptyModule) emptyModule :=
  generate_trivial_only_adds_init emptyModule (by decide) rfl

/-- C3 failing input evaluated: interning a single immutable f64 imported
global appends a global whose type keeps valtype f64 and is forced mutable,
but whose placeholder initializer is the i32-typed zero constant
`i32.const 0` — its type does not match the imported global's value type. -/
theorem rewriteImportedGlobals_placeholder_is_i32 :
    (rewriteImportedGlobals f64ConstImportModule f64ConstImportModule).globals =
      [⟨⟨"f64", "var"⟩, [.objectInstruction "const" "i32" [0]]⟩] ∧
    (rewriteImportedGlobals f64ConstImportModule f64ConstImportModule).globals ≠
      [⟨⟨"f64", "var"⟩, [.objectInstruction "const" "f64" [0]]⟩] := by decide

/-- C4 failing input evaluated: with one imported global (k = 1) and one
pre-existing locally defined global (m = 1), the interning stage appends the
interned global after the pre-existing one, so the resulting global index
space has the original local at index 0 and the interned global at index 1
— not the interned globals at [0,k) followed by the locals. -/
theorem rewriteImportedGlobals_appends_after_locals :
    globalIndexSpace mixedGlobalsModule =
      [⟨"i32", "const"⟩, ⟨"f32", "const"⟩] ∧
    globalIndexSpace (rewriteImportedGlobals mixedGlobalsModule mixedGlobalsModule) =
      [⟨"f32", "const"⟩, ⟨"i32", "var"⟩] ∧
    (globalIndexSpace
        (rewriteImportedGlobals mixedGlobalsModule mixedGlobalsModule)).head? ≠
      some ⟨"i32", "var"⟩ := by decide

/-- C5: the synthesized function's body is exactly the k
(read-parameter i, write-global i) pairs for i in [0,k), followed by a call
to the input module's original start index exactly when the input had a
start section, and by nothing otherwise. -/
theorem initFunction_body_pairs_and_call (m : Module) :
    ((generate m).funcs.getLast?).map Func.body = some (initBody m) := by
  rw [generate_explicit]
  simp [List.getLast?_concat]

/-- C6: `getNextTypeIndex` yields 0 for an absent type section and the entry
count for a present one; `getNextFuncIndex` yields the imported-function
count for an absent function section and the entry count plus the
 imported-function count for a present one. -/
theorem nextTypeIndex_nextFuncIndex_correct (m : Module) (countImportedFunc : Nat) :
    getNextTypeIndex m =
      (match m.typeSec with
       | none => 0
       | some entries => entries.length) ∧
    getNextFuncIndex m countImportedFunc =
      (match m.funcSec with
       | none => countImportedFunc
       | some entries => entries.length + countImportedFunc) := by
  constructor
  · cases h : m.typeSec <;>
      simp [getNextTypeIndex, getSectionMetadata, h]
  · cases h : m.funcSec <;>
      simp [getNextFuncIndex, getSectionMetadata, h]

/-- C7: the synthesized function has one parameter per interned global, in
original import order, each carrying the imported global's value type and
the diagnostic name `<importModuleName>.<importEntityName>`, and it declares
no return values. -/
theorem initFunction_params_and_results (m : Module) :
    ((generate m).funcs.getLast?).map Func.signature =
      some (FuncSignature.mk
        ((getImportedGlobals m).map (fun g =>
          FuncParam.mk g.descr.valtype (g.module ++ "." ++ g.name))) []) := by
  rw [generate_explicit]
  simp [List.getLast?_concat, initParams]

/-- C8: absent sections are never an error — with no global imports
`getImportedGlobals` is empty, with no function imports
`getCountImportedFunc` is 0, with no start section `getStartFuncIndex` is
none, and with the type and function sections missing the next-index
functions return their defaults (0, and the imported-function count). -/
theorem absent_sections_defaults (m : Module) (c : Nat)
    (h1 : ∀ n ∈ m.imports, isGlobalImport n = false)
    (h2 : ∀ n ∈ m.imports, isFuncImport n = false)
    (h3 : m.start = none) (h4 : m.typeSec = none) (h5 : m.funcSec = none) :
    getImportedGlobals m = [] ∧ getCountImportedFunc m = 0 ∧
      getStartFuncIndex m = none ∧ getNextTypeIndex m = 0 ∧
      getNextFuncIndex m c = c := by
  refine ⟨?_, ?_, h3, ?_, ?_⟩
  · exact List.filter_eq_nil_iff.mpr (by
      intro n hn
      simp [h1 n hn])
  · exact List.countP_eq_zero.mpr (by
      intro n hn
      simp [h2 n hn])
  · simp [getNextTypeIndex, getSectionMetadata, h4]
  · simp [getNextFuncIndex, getSectionMetadata, h5]

/-- C8, witness at the empty module. -/
theorem absent_sections_defaults_witness :
    getImportedGlobals emptyModule = [] ∧ getCountImportedFunc emptyModule = 0 ∧
      getStartFuncIndex emptyModule = none ∧ getNextTypeIndex emptyModule = 0 ∧
      getNextFuncIndex emptyModule 7 = 7 :=
  absent_sections_defaults emptyModule 7 (by decide) (by decide) rfl rfl rfl

/-- C9 counterexample: the interning stage does modify the tree — on the
module importing one immutable f64 global, the import node's descriptor has
mutability "const" before the stage and "var" after it. -/
theorem rewriteImportedGlobalsAst_mutates_descriptor :
    (f64ConstImportModule.imports.head?).map (fun n => n.descr) =
      some (.globalType ⟨"f64", "const"⟩) ∧
    ((rewriteImportedGlobalsAst f64ConstImportModule).imports.head?).map
        (fun n => n.descr) =
      some (.globalType ⟨"f64", "var"⟩) ∧
    rewriteImportedGlobalsAst f64ConstImportModule ≠ f64ConstImportModule := by
  decide

/-- C9 amended: the interning stage mutates the decoded tree in exactly one
way — every global import node's descriptor has its mutability field set to
"var" in place (the mutated descriptor is then reused as the appended
global's type); module name, entity name and value type of every import,
non-global imports, and every other part of the tree are unchanged. -/
theorem interning_mutates_only_mutability (m : Module) :
    rewriteImportedGlobalsAst m =
      { m with imports := m.imports.map forceMutableImport } := by
  unfold rewriteImportedGlobalsAst
  rw [rewriteImportedGlobalsVisit_fst]

/-- C10: the synthesized function's identifier and the name under which it
is exported are both the fixed string "__webpack_init__", whatever the input
module contains. -/
theorem init_name_is_reserved (m : Module) :
    ((generate m).funcs.getLast?).map Func.id = some "__webpack_init__" ∧
    ((generate m).exports.getLast?).map ModuleExport.name =
      some "__webpack_init__" ∧
    initFuncId.value = "__webpack_init__" := by
  refine ⟨?_, ?_, rfl⟩
  · rw [generate_explicit]
    simp [List.getLast?_concat, initFuncId]
  · rw [generate_explicit]
    simp [List.getLast?_concat, initFuncId]

end WebAssemblyGenerator
